import Mathlib

/-!
Verification development for a newsletter-detection crawler (`app.py`) and a
newsletter-registration bot (`register_newsletters.py`).

The Python sources are shallowly embedded below.  Python strings are Lean
`String`s; the string primitives the code relies on (`.lower()`, substring
containment via `in`, `.strip()`, `int(...)`, slicing, regular-expression
search for the five fixed `word.*word` patterns) are re-implemented over
`List Char` by structural recursion so that every definition evaluates inside
the kernel.  HTML parsing and the HTTP transport are external collaborators:
parsed documents and network responses are inputs of the embedded functions.
-/

/-! ### Python-style string primitives -/

/-- Auxiliary for substring containment: does `needle` occur in the list? -/
def containsAux (needle : List Char) : List Char → Bool
  | [] => needle.isEmpty
  | c :: t => if needle.isPrefixOf (c :: t) then true else containsAux needle t

/-- Python `needle in hay` for strings. -/
def strContains (hay needle : String) : Bool :=
  containsAux needle.data hay.data

/-- ASCII lower-casing of one character, as Python `str.lower` acts on the
ASCII inputs used throughout the sources. -/
def strLower (s : String) : String :=
  String.mk (s.data.map Char.toLower)

/-- Python slicing `s[:n]`. -/
def strTake (s : String) (n : Nat) : String :=
  String.mk (s.data.take n)

/-- Python whitespace for `str.strip`. -/
def isPySpace (c : Char) : Bool :=
  c.toNat = 32 || (9 ≤ c.toNat && c.toNat ≤ 13)

/-- Python `str.strip()`. -/
def strStrip (s : String) : String :=
  String.mk (((s.data.dropWhile isPySpace).reverse.dropWhile isPySpace).reverse)

/-- Digit-sequence parser underlying `int(...)`. -/
def parseDigitsAux : List Char → Nat → Option Nat
  | [], acc => some acc
  | c :: t, acc =>
    if 48 ≤ c.toNat && c.toNat ≤ 57 then parseDigitsAux t (acc * 10 + (c.toNat - 48))
    else none

/-- Nonempty all-digit parse. -/
def parseDigits (cs : List Char) : Option Nat :=
  if cs.isEmpty then none else parseDigitsAux cs 0

/-- Python `int(s)`: strip whitespace, optional sign, decimal digits;
`none` models the `ValueError` raised on anything else. -/
def pyInt (s : String) : Option Int :=
  match (strStrip s).data with
  | [] => none
  | c :: rest =>
    if c.toNat = 45 then (parseDigits rest).map (fun n => -(n : Int))
    else (parseDigits (c :: rest)).map (fun n => (n : Int))

/-- Code-point comparison of character lists (Python string `<=` order). -/
def charListLe : List Char → List Char → Bool
  | [], _ => true
  | _ :: _, [] => false
  | a :: as, b :: bs =>
    if a.toNat < b.toNat then true
    else if b.toNat < a.toNat then false
    else charListLe as bs

/-- Python string `<=` by code points. -/
def strLe (a b : String) : Bool :=
  charListLe a.data b.data

/-- Insertion step of the sort mirroring Python `sorted`. -/
def insertSorted (s : String) : List String → List String
  | [] => [s]
  | x :: t => if strLe s x then s :: x :: t else x :: insertSorted s t

/-- Python `sorted` on a list of strings. -/
def sortStrings (l : List String) : List String :=
  l.foldr insertSorted []

/-- Python `set.add`: keep the element list duplicate-free. -/
def insertSet (l : List String) (s : String) : List String :=
  if l.contains s then l else l ++ [s]

/-- Split a character list at newline characters; `re` treats `.` as
matching any character except a newline, so a `w1.*w2` pattern can only
match inside one such segment. -/
def splitLines : List Char → List (List Char)
  | [] => [[]]
  | c :: t =>
    let r := splitLines t
    if c.toNat = 10 then [] :: r
    else
      match r with
      | [] => [[c]]
      | l :: ls => (c :: l) :: ls

/-- Drop everything up to and including the first occurrence of `needle`;
`none` when `needle` does not occur. -/
def subAfter (needle : List Char) : List Char → Option (List Char)
  | [] => if needle.isEmpty then some [] else none
  | c :: t =>
    if needle.isPrefixOf (c :: t) then some ((c :: t).drop needle.length)
    else subAfter needle t

/-- Sequential word matching inside one newline-free segment: the words must
occur in order with arbitrary (possibly empty) gaps, exactly the language of
`w1.*w2.*...*wn`. -/
def matchSeq : List String → List Char → Bool
  | [], _ => true
  | w :: ws, cs =>
    match subAfter w.data cs with
    | none => false
    | some rest => matchSeq ws rest

/-- `re.search` of a `w1.*w2.*...*wn` pattern (given by its word list) in
`text`: some newline-delimited segment contains the words in order. -/
def reSearchWords (words : List String) (text : String) : Bool :=
  (splitLines text.data).any (fun line => matchSeq words line)

/-! ### Submission outcome classification (`register_newsletters.py`,
`register_to_newsletter`, response-body branch) -/

/-- Success keyword list of `register_to_newsletter`. -/
def success_keywords : List String :=
  ["thank", "success", "confirm", "subscribed", "check your email", "welcome"]

/-- Error keyword list of `register_to_newsletter`. -/
def error_keywords : List String :=
  ["error", "invalid", "failed", "already subscribed"]

/-- Outcome classification of a submission response body: lower-case the
body, test the two keyword sets, and branch exactly as the source does. -/
def classify_submission (body : String) : Bool × String :=
  if success_keywords.any (fun kw => strContains (strLower body) kw) &&
      !(error_keywords.any (fun kw => strContains (strLower body) kw)) then
    (true, "Success - confirmation detected")
  else if error_keywords.any (fun kw => strContains (strLower body) kw) then
    (false, "Failed - error message in response")
  else
    (true, "Success - form submitted")

/-- Claim C1: for every submission response body, a success keyword with no
error keyword yields Confirmed (succeeded = true); otherwise an error keyword
yields ErrorDetected (succeeded = false); otherwise AssumedSuccess
(succeeded = true). -/
theorem c1_outcome_classification (body : String) :
    ((∃ kw ∈ success_keywords, strContains (strLower body) kw = true) ∧
      (∀ kw ∈ error_keywords, strContains (strLower body) kw = false) →
      classify_submission body = (true, "Success - confirmation detected")) ∧
    ((∃ kw ∈ error_keywords, strContains (strLower body) kw = true) →
      classify_submission body = (false, "Failed - error message in response")) ∧
    ((∀ kw ∈ success_keywords, strContains (strLower body) kw = false) ∧
      (∀ kw ∈ error_keywords, strContains (strLower body) kw = false) →
      classify_submission body = (true, "Success - form submitted")) := by
  refine ⟨?_, ?_, ?_⟩
  · rintro ⟨⟨kw, hmem, hkw⟩, herr⟩
    have hs : success_keywords.any (fun k => strContains (strLower body) k) = true :=
      List.any_eq_true.mpr ⟨kw, hmem, hkw⟩
    have he : error_keywords.any (fun k => strContains (strLower body) k) = false :=
      List.any_eq_false.mpr (fun k hk => by simp [herr k hk])
    simp [classify_submission, hs, he]
  · rintro ⟨kw, hmem, hkw⟩
    have he : error_keywords.any (fun k => strContains (strLower body) k) = true :=
      List.any_eq_true.mpr ⟨kw, hmem, hkw⟩
    simp [classify_submission, he]
  · rintro ⟨hsall, heall⟩
    have hs : success_keywords.any (fun k => strContains (strLower body) k) = false :=
      List.any_eq_false.mpr (fun k hk => by simp [hsall k hk])
    have he : error_keywords.any (fun k => strContains (strLower body) k) = false :=
      List.any_eq_false.mpr (fun k hk => by simp [heall k hk])
    simp [classify_submission, hs, he]

/-- Witness for C1: the three branches at concrete response bodies. -/
theorem c1_witness :
    classify_submission "Thank you for joining" = (true, "Success - confirmation detected") ∧
    classify_submission "Sorry, invalid email" = (false, "Failed - error message in response") ∧
    classify_submission "hello world" = (true, "Success - form submitted") :=
  ⟨(c1_outcome_classification "Thank you for joining").1
      ⟨⟨"thank", by decide, by decide⟩, by decide⟩,
    (c1_outcome_classification "Sorry, invalid email").2.1 ⟨"invalid", by decide, by decide⟩,
    (c1_outcome_classification "hello world").2.2 ⟨by decide, by decide⟩⟩

/-! ### Site list and email list loading (`register_newsletters.py`,
`read_newsletter_sites` and `load_emails`).  `random.shuffle` is modelled by
an arbitrary permutation-producing function passed as an argument. -/

/-- One data row of the detection result store (`newsletter_sites.csv`). -/
structure CsvRow where
  domain : String
  url : String
  has_newsletter : String
  confidence_score : String
  found_newsletter_path : String
deriving DecidableEq, Repr

/-- A candidate site as assembled by `read_newsletter_sites`. -/
structure RegSite where
  domain : String
  url : String
  confidence : Int
  paths : String
deriving DecidableEq, Repr

/-- The row-filtering loop of `read_newsletter_sites`: keep rows whose
`has_newsletter` column lower-cases to true/1/yes and whose parsed confidence
is at least 30; `none` models the exception handler (a row whose confidence
column fails `int(...)` aborts the whole read and yields `[]`). -/
def collectSites : List CsvRow → Option (List RegSite)
  | [] => some []
  | r :: rest =>
    if ["true", "1", "yes"].contains (strLower r.has_newsletter) then
      match pyInt r.confidence_score with
      | none => none
      | some c =>
        if 30 ≤ c then
          (collectSites rest).map
            (fun sites => ⟨r.domain, r.url, c, r.found_newsletter_path⟩ :: sites)
        else collectSites rest
    else collectSites rest

/-- `read_newsletter_sites`: filter the persisted rows, then shuffle the
resulting list (the source calls `random.shuffle` three times; `shuffle`
stands for the randomly chosen permutation it applies). -/
def read_newsletter_sites (rows : List CsvRow) (shuffle : List RegSite → List RegSite) :
    List RegSite :=
  match collectSites rows with
  | none => []
  | some sites => shuffle sites

/-- The filtered site rows in persisted input order. -/
def sitesInOrder (rows : List CsvRow) : List RegSite :=
  (collectSites rows).getD []

/-- Stripped, nonempty lines of the email file, in file order. -/
def clean_emails (lines : List String) : List String :=
  (lines.filter (fun l => strStrip l ≠ "")).map strStrip

/-- `load_emails`: clean the file lines, then shuffle three times. -/
def load_emails (lines : List String) (shuffle : List String → List String) : List String :=
  shuffle (shuffle (shuffle (clean_emails lines)))

/-- Concrete rows used to exhibit the shuffle. -/
def rowA : CsvRow := ⟨"a.com", "https://a.com/", "true", "50", "/"⟩

/-- Second concrete row. -/
def rowB : CsvRow := ⟨"b.com", "https://b.com/", "yes", "40", "/"⟩

/-- A two-row persisted input. -/
def rows2 : List CsvRow := [rowA, rowB]

/-- Counterexample for C2: the claim that sites are processed strictly in
persisted input order fails, because `read_newsletter_sites` shuffles the
filtered list; reversal is one of the permutations `random.shuffle` can
produce, and it changes the order of a two-row input. -/
theorem c2_counterexample :
    ¬ (∀ shuffle : List RegSite → List RegSite,
        (∀ l : List RegSite, (shuffle l).Perm l) →
        read_newsletter_sites rows2 shuffle = sitesInOrder rows2) := by
  intro h
  have hrev := h List.reverse (fun l => List.reverse_perm l)
  exact absurd hrev (by decide)

/-- Claim C2 (amended): the Registration Orchestrator processes a random
permutation of the filtered persisted sites (not their input order), and
tries a random permutation of the email-file values (not their input order);
in both cases the processed list is a permutation of the corresponding
cleaned input. -/
theorem c2_amended_permutation (rows : List CsvRow) (lines : List String)
    (shS : List RegSite → List RegSite) (shE : List String → List String)
    (hS : ∀ l : List RegSite, (shS l).Perm l)
    (hE : ∀ l : List String, (shE l).Perm l) :
    (read_newsletter_sites rows shS).Perm (sitesInOrder rows) ∧
    (load_emails lines shE).Perm (clean_emails lines) := by
  constructor
  · unfold read_newsletter_sites sitesInOrder
    cases collectSites rows with
    | none => exact List.Perm.refl _
    | some sites => exact hS sites
  · exact ((hE _).trans (hE _)).trans (hE _)

/-- Witness for C2's amended theorem at a concrete input and the reversal
permutation. -/
theorem c2_witness :
    (read_newsletter_sites rows2 List.reverse).Perm (sitesInOrder rows2) ∧
    (load_emails ["x@a.com", "", "y@b.com"] List.reverse).Perm
      (clean_emails ["x@a.com", "", "y@b.com"]) :=
  c2_amended_permutation rows2 ["x@a.com", "", "y@b.com"] List.reverse List.reverse
    (fun l => List.reverse_perm l) (fun l => List.reverse_perm l)

/-! ### Generic form discovery (`register_newsletters.py`,
`find_newsletter_form`).  A parsed form is given by its control elements in
document order, its `action`/`method` attributes, and its serialized markup
(`str(form)`), all produced by the external HTML parser. -/

/-- One input/textarea/button control, with the attributes the sources read;
`none` models an absent attribute, `text` is the element's visible text. -/
structure Ctl where
  tag : String
  typeAttr : Option String
  nameAttr : Option String
  idAttr : Option String
  placeholderAttr : Option String
  valueAttr : Option String
  text : String
deriving DecidableEq, Repr

/-- A parsed `<form>` element. -/
structure FormElem where
  controls : List Ctl
  actionAttr : Option String
  methodAttr : Option String
  serialized : String
deriving DecidableEq, Repr

/-- The descriptor `find_newsletter_form` builds. -/
structure FormData where
  action : String
  method : String
  fields : List (String × String)
  email_field : String
deriving DecidableEq, Repr

/-- Python `dict` assignment `d[k] = v`: overwrite in place, else append. -/
def dictInsert (d : List (String × String)) (k v : String) : List (String × String) :=
  match d with
  | [] => [(k, v)]
  | (k0, v0) :: rest => if k0 = k then (k0, v) :: rest else (k0, v0) :: dictInsert rest k v

/-- The qualifying email inputs of one form: inputs typed `email`, or — when
there are none — text inputs whose name/id/placeholder concatenation
lower-cases to something containing `email` or `mail`. -/
def emailInputsOf (f : FormElem) : List Ctl :=
  let typed := f.controls.filter (fun c => c.tag = "input" ∧ c.typeAttr = some "email")
  if typed.isEmpty then
    f.controls.filter (fun c =>
      c.tag = "input" ∧ c.typeAttr = some "text" ∧
        (let n := strLower ((c.nameAttr.getD "") ++ (c.idAttr.getD "") ++
            (c.placeholderAttr.getD ""))
        (strContains n "email" || strContains n "mail") = true))
  else typed

/-- The field-map loop over a form's input/textarea controls: named controls
keep their pre-filled value; unnamed, empty-named, submit- and button-typed
controls are skipped. -/
def fieldsAux : List Ctl → List (String × String) → List (String × String)
  | [], acc => acc
  | c :: cs, acc =>
    if c.tag = "input" ∨ c.tag = "textarea" then
      match c.nameAttr with
      | some n =>
        if n = "" then fieldsAux cs acc
        else
          if strLower (c.typeAttr.getD "") = "submit" ∨
              strLower (c.typeAttr.getD "") = "button" then fieldsAux cs acc
          else fieldsAux cs (dictInsert acc n (c.valueAttr.getD ""))
      | none => fieldsAux cs acc
    else fieldsAux cs acc

/-- The `fields` dictionary of one form. -/
def fieldsOf (f : FormElem) : List (String × String) :=
  fieldsAux f.controls []

/-- The newsletter keywords `find_newsletter_form` looks for in the
serialized form. -/
def reg_keywords : List String :=
  ["newsletter", "subscribe", "signup", "join", "mailing"]

/-- `find_newsletter_form`: first form (in document order) that has a
qualifying email input and whose serialized markup contains a newsletter
keyword; `join` is the external `urljoin` used to resolve the action. -/
def find_newsletter_form (join : String → String → String) (forms : List FormElem)
    (url : String) : Option FormData :=
  match forms with
  | [] => none
  | f :: rest =>
    match emailInputsOf f with
    | [] => find_newsletter_form join rest url
    | e :: _ =>
      if reg_keywords.any (fun kw => strContains (strLower f.serialized) kw) then
        some
          { action := if (f.actionAttr.getD "") = "" then url
              else join url (f.actionAttr.getD ""),
            method := strLower (f.methodAttr.getD "post"),
            fields := fieldsOf f,
            email_field := e.nameAttr.getD "email" }
      else find_newsletter_form join rest url

/-- `dictInsert` puts its key into the map. -/
theorem dictInsert_mem_key (d : List (String × String)) (k v : String) :
    k ∈ (dictInsert d k v).map Prod.fst := by
  induction d with
  | nil => simp [dictInsert]
  | cons p rest ih =>
    obtain ⟨k0, v0⟩ := p
    by_cases h : k0 = k <;> simp [dictInsert, h, ih]

/-- `dictInsert` preserves existing keys. -/
theorem dictInsert_mem_key_mono (d : List (String × String)) (k v k0 : String)
    (h : k0 ∈ d.map Prod.fst) : k0 ∈ (dictInsert d k v).map Prod.fst := by
  induction d with
  | nil => simp at h
  | cons p rest ih =>
    obtain ⟨k1, v1⟩ := p
    simp only [List.map_cons, List.mem_cons] at h
    by_cases hk : k1 = k
    · simp only [dictInsert, if_pos hk, List.map_cons, List.mem_cons]
      exact h
    · simp only [dictInsert, if_neg hk, List.map_cons, List.mem_cons]
      rcases h with h0 | h0
      · exact Or.inl h0
      · exact Or.inr (ih h0)

/-- Keys already present before the field loop survive it. -/
theorem fieldsAux_mono (cs : List Ctl) (acc : List (String × String)) (k : String)
    (h : k ∈ acc.map Prod.fst) : k ∈ (fieldsAux cs acc).map Prod.fst := by
  induction cs generalizing acc with
  | nil => simpa [fieldsAux] using h
  | cons c rest ih =>
    by_cases ht : c.tag = "input" ∨ c.tag = "textarea"
    · cases hn : c.nameAttr with
      | none => simpa [fieldsAux, ht, hn] using ih acc h
      | some n =>
        by_cases hne : n = ""
        · simpa [fieldsAux, ht, hn, hne] using ih acc h
        · by_cases hty : strLower (c.typeAttr.getD "") = "submit" ∨
              strLower (c.typeAttr.getD "") = "button"
          · simpa [fieldsAux, ht, hn, hne, hty] using ih acc h
          · have := ih (dictInsert acc n (c.valueAttr.getD ""))
              (dictInsert_mem_key_mono acc n (c.valueAttr.getD "") k h)
            simpa [fieldsAux, ht, hn, hne, hty] using this
    · simpa [fieldsAux, ht] using ih acc h

/-- A named input/textarea control that is not submit/button-typed
contributes its name as a key of the field map. -/
theorem fieldsAux_mem_of_ctl (cs : List Ctl) (acc : List (String × String)) (c : Ctl)
    (hc : c ∈ cs) (ht : c.tag = "input" ∨ c.tag = "textarea") (n : String)
    (hn : c.nameAttr = some n) (hne : n ≠ "")
    (hty : ¬(strLower (c.typeAttr.getD "") = "submit" ∨
      strLower (c.typeAttr.getD "") = "button")) :
    n ∈ (fieldsAux cs acc).map Prod.fst := by
  induction cs generalizing acc with
  | nil => simp at hc
  | cons c0 rest ih =>
    rcases List.mem_cons.mp hc with hc0 | hc0
    · subst hc0
      have hkey := dictInsert_mem_key acc n (c.valueAttr.getD "")
      have := fieldsAux_mono rest (dictInsert acc n (c.valueAttr.getD "")) n hkey
      simpa [fieldsAux, ht, hn, hne, hty] using this
    · by_cases ht0 : c0.tag = "input" ∨ c0.tag = "textarea"
      · cases hn0 : c0.nameAttr with
        | none => simpa [fieldsAux, ht0, hn0] using ih acc hc0
        | some n0 =>
          by_cases hne0 : n0 = ""
          · simpa [fieldsAux, ht0, hn0, hne0] using ih acc hc0
          · by_cases hty0 : strLower (c0.typeAttr.getD "") = "submit" ∨
                strLower (c0.typeAttr.getD "") = "button"
            · simpa [fieldsAux, ht0, hn0, hne0, hty0] using ih acc hc0
            · simpa [fieldsAux, ht0, hn0, hne0, hty0] using
                ih (dictInsert acc n0 (c0.valueAttr.getD "")) hc0
      · simpa [fieldsAux, ht0] using ih acc hc0

/-- A trivial URL resolver standing in for `urljoin` in concrete examples. -/
def joinStub : String → String → String := fun _ a => a

/-- An email-typed input carrying no `name` attribute. -/
def cexEmailInput : Ctl := ⟨"input", some "email", none, none, none, none, ""⟩

/-- A qualifying newsletter form whose only email input is unnamed. -/
def cexForm : FormElem :=
  ⟨[cexEmailInput], none, none, "<form class=\"newsletter\"><input type=\"email\"/></form>"⟩

/-- Counterexample for C3: a qualifying form whose email input has no `name`
attribute produces a descriptor with `email_field = "email"` while the fields
map is empty, so the claimed invariant fails. -/
theorem c3_counterexample :
    ∃ fd, find_newsletter_form joinStub [cexForm] "https://x.com/" = some fd ∧
      fd.email_field ∉ fd.fields.map Prod.fst := by
  refine ⟨⟨"https://x.com/", "post", [], "email"⟩, by decide, by decide⟩

/-- Claim C3 (amended): every descriptor returned by form discovery comes
from a form of the document and its first qualifying email input `e`; the
descriptor's email field name is `e`'s `name` attribute (defaulting to
"email" when the attribute is absent, and `""` when it is empty), its fields
map is that form's field map, and whenever `e` carries a nonempty `name`
attribute that name — the descriptor's email field name — is a key of the
fields map; only in the defaulted/empty cases may it be missing. -/
theorem c3_target_field_key (join : String → String → String) (forms : List FormElem)
    (url : String) (fd : FormData)
    (h : find_newsletter_form join forms url = some fd) :
    ∃ f ∈ forms, ∃ e tail, emailInputsOf f = e :: tail ∧
      fd.email_field = e.nameAttr.getD "email" ∧ fd.fields = fieldsOf f ∧
      (∀ n, e.nameAttr = some n → n ≠ "" →
        fd.email_field ∈ fd.fields.map Prod.fst) := by
  induction forms with
  | nil => simp [find_newsletter_form] at h
  | cons f rest ih =>
    rw [find_newsletter_form] at h
    cases hemail : emailInputsOf f with
    | nil =>
      rw [hemail] at h
      obtain ⟨f0, hf0, e0, t0, ha, hb, hc, hd⟩ := ih h
      exact ⟨f0, List.mem_cons_of_mem f hf0, e0, t0, ha, hb, hc, hd⟩
    | cons e tailE =>
      rw [hemail] at h
      have h2 : (if (reg_keywords.any fun kw => strContains (strLower f.serialized) kw) = true
          then some (FormData.mk
              (if (f.actionAttr.getD "") = "" then url else join url (f.actionAttr.getD ""))
              (strLower (f.methodAttr.getD "post")) (fieldsOf f) (e.nameAttr.getD "email"))
          else find_newsletter_form join rest url) = some fd := h
      by_cases hkw : (reg_keywords.any fun kw => strContains (strLower f.serialized) kw) = true
      · rw [if_pos hkw] at h2
        have hfd : fd = FormData.mk
            (if (f.actionAttr.getD "") = "" then url else join url (f.actionAttr.getD ""))
            (strLower (f.methodAttr.getD "post")) (fieldsOf f) (e.nameAttr.getD "email") := by
          cases h2
          rfl
        subst hfd
        refine ⟨f, List.mem_cons_self f rest, e, tailE, hemail, rfl, rfl, ?_⟩
        intro n hn hne
        have he : e ∈ f.controls ∧
                (e.tag = "input" ∧ e.typeAttr = some "email" ∨
                 e.tag = "input" ∧ e.typeAttr = some "text") := by
              unfold emailInputsOf at hemail
              by_cases htyped :
                  (f.controls.filter
                    (fun c => c.tag = "input" ∧ c.typeAttr = some "email")).isEmpty = true
              · rw [if_pos htyped] at hemail
                have hmem : e ∈ f.controls.filter (fun c =>
                    c.tag = "input" ∧ c.typeAttr = some "text" ∧
                      (let nm := strLower ((c.nameAttr.getD "") ++ (c.idAttr.getD "") ++
                          (c.placeholderAttr.getD ""))
                      (strContains nm "email" || strContains nm "mail") = true)) := by
                  rw [hemail]
                  exact List.mem_cons_self e tailE
                have hp := List.of_mem_filter hmem
                refine ⟨List.mem_of_mem_filter hmem, Or.inr ?_⟩
                have hp2 := of_decide_eq_true hp
                exact ⟨hp2.1, hp2.2.1⟩
              · rw [if_neg htyped] at hemail
                have hmem : e ∈ f.controls.filter
                    (fun c => c.tag = "input" ∧ c.typeAttr = some "email") := by
                  rw [hemail]
                  exact List.mem_cons_self e tailE
                have hp := List.of_mem_filter hmem
                exact ⟨List.mem_of_mem_filter hmem, Or.inl (of_decide_eq_true hp)⟩
        have hty : ¬(strLower (e.typeAttr.getD "") = "submit" ∨
            strLower (e.typeAttr.getD "") = "button") := by
          rcases he.2 with ⟨_, hta⟩ | ⟨_, hta⟩ <;> rw [hta] <;> decide
        have htag : e.tag = "input" ∨ e.tag = "textarea" := by
          rcases he.2 with ⟨hta, _⟩ | ⟨hta, _⟩ <;> exact Or.inl hta
        simpa [hn] using fieldsAux_mem_of_ctl f.controls [] e he.1 htag n hn hne hty
      · rw [if_neg hkw] at h2
        obtain ⟨f0, hf0, e0, t0, ha, hb, hc, hd⟩ := ih h2
        exact ⟨f0, List.mem_cons_of_mem f hf0, e0, t0, ha, hb, hc, hd⟩

/-- A named email input. -/
def goodEmailInput : Ctl := ⟨"input", some "email", some "em", none, none, none, ""⟩

/-- A qualifying form whose email input is named `em`. -/
def goodForm : FormElem :=
  ⟨[goodEmailInput], some "/subscribe", some "POST",
    "<form action=\"/subscribe\"><input type=\"email\" name=\"em\"/>newsletter</form>"⟩

/-- The descriptor discovery builds for `goodForm`. -/
def goodFd : FormData := ⟨"/subscribe", "post", [("em", "")], "em"⟩

/-- Witness for C3's amended theorem at a concrete qualifying form whose
email input is named `em`: the name is a key of the fields map. -/
theorem c3_witness : goodFd.email_field ∈ goodFd.fields.map Prod.fst := by
  obtain ⟨f, hf, e, tail, hemail, -, -, hmem⟩ :=
    c3_target_field_key joinStub [goodForm] "https://x.com/" goodFd (by decide)
  obtain rfl : f = goodForm := List.mem_singleton.mp hf
  have h1 : emailInputsOf goodForm = [goodEmailInput] := by decide
  rw [h1] at hemail
  cases hemail
  exact hmem "em" rfl (by decide)

/-! ### Signal detection engine (`app.py`, `detect_newsletter`).  A parsed
document carries its forms, the page text extracted by the parser
(`soup.get_text(separator=" ")`), the raw markup, and the `src` attributes of
its iframes. -/

/-- A parsed document. -/
structure Doc where
  forms : List FormElem
  text : String
  html : String
  iframeSrcs : List (Option String)
deriving DecidableEq, Repr

/-- The page-level newsletter keyword list of `app.py`. -/
def NEWSLETTER_KEYWORDS : List String :=
  ["newsletter", "subscribe", "subscription", "sign up", "signup", "join our",
   "mailing list", "email updates", "get updates", "stay updated", "weekly digest"]

/-- The five fixed text patterns, each with the word list its `.*`-separated
regex matches sequentially. -/
def newsletter_patterns : List (String × List String) :=
  [("newsletter.*sign.*up", ["newsletter", "sign", "up"]),
   ("subscribe.*newsletter", ["subscribe", "newsletter"]),
   ("join.*mailing.*list", ["join", "mailing", "list"]),
   ("email.*subscription", ["email", "subscription"]),
   ("get.*weekly.*digest", ["get", "weekly", "digest"])]

/-- The eight known third-party newsletter services. -/
def newsletter_services : List String :=
  ["mailchimp", "substack", "convertkit", "buttondown",
   "revue", "tinyletter", "sendinblue", "getresponse"]

/-- Per-form scoring of `detect_newsletter`: email-typed inputs (+30 once),
each email-named text input (+25), a newsletter-ish `action` (+20), each
keyword-bearing button (+15); the signal set collects one tag per rule. -/
def scoreForm (acc : List String × Nat) (form : FormElem) : List String × Nat :=
  let emailIn := form.controls.filter (fun c => c.tag = "input" ∧ c.typeAttr = some "email")
  let textIn := form.controls.filter (fun c => c.tag = "input" ∧ c.typeAttr = some "text")
  let acc1 := if emailIn.isEmpty then acc
    else (insertSet acc.1 "form:email_input_type", acc.2 + 30)
  let acc2 := textIn.foldl (fun a inp =>
    let nm := strLower ((inp.nameAttr.getD "") ++ (inp.idAttr.getD "") ++
      (inp.placeholderAttr.getD ""))
    if ["email", "mail", "e-mail"].any (fun kw => strContains nm kw) then
      (insertSet a.1 "form:email_named_input", a.2 + 25)
    else a) acc1
  let acc3 := if ["subscribe", "newsletter", "signup", "join", "register"].any
      (fun kw => strContains (strLower (form.actionAttr.getD "")) kw) then
    (insertSet acc2.1 "form:newsletter_action", acc2.2 + 20)
  else acc2
  (form.controls.filter (fun c => c.tag = "button" ∨ c.tag = "input")).foldl
    (fun a btn =>
      let bt := strLower ((btn.valueAttr.getD "") ++ btn.text)
      if NEWSLETTER_KEYWORDS.any (fun kw => strContains bt kw) then
        (insertSet a.1 "form:newsletter_button", a.2 + 15)
      else a) acc3

/-- Signal set and confidence of `detect_newsletter`: form scoring, then the
five text patterns (+10 each), then service names in the raw markup (+25
each), then provider iframes (+20 per iframe). -/
def detectCore (doc : Doc) : List String × Nat :=
  let acc0 := doc.forms.foldl scoreForm ([], 0)
  let acc1 := newsletter_patterns.foldl (fun a pat =>
    if reSearchWords pat.2 (strLower doc.text) then
      (insertSet a.1 ("pattern:" ++ strTake pat.1 20), a.2 + 10)
    else a) acc0
  let acc2 := newsletter_services.foldl (fun a s =>
    if strContains (strLower doc.html) s then (insertSet a.1 ("service:" ++ s), a.2 + 25)
    else a) acc1
  doc.iframeSrcs.foldl (fun a src =>
    if newsletter_services.any (fun s => strContains (strLower (src.getD "")) s) then
      (insertSet a.1 "iframe:newsletter_widget", a.2 + 20)
    else a) acc2

/-- `detect_newsletter`: classification flag, confidence, and the sorted
signal set (the source returns the signals `;`-joined after `sorted`; none of
the signal names contains `;`, so the list of sorted names carries the same
information). -/
def detect_newsletter (doc : Doc) : Bool × Nat × List String :=
  (decide (30 ≤ (detectCore doc).2), (detectCore doc).2, sortStrings (detectCore doc).1)

/-- The classification flag is exactly the 30-threshold on confidence. -/
theorem detect_classified (doc : Doc) :
    (detect_newsletter doc).1 = decide (30 ≤ (detect_newsletter doc).2.1) := rfl

/-- The form-free document of end-to-end example 2. -/
def exampleDoc2 : Doc :=
  { forms := [],
    text := "Subscribe to our Newsletter and get our weekly digest",
    html := "<p>Subscribe to our Newsletter and get our weekly digest</p>",
    iframeSrcs := [] }

/-- Counterexample for C4: the example text matches two patterns
(`subscribe.*newsletter` and `get.*weekly.*digest`), so the detection
confidence is 20, not the claimed 10. -/
theorem c4_counterexample :
    ¬ ((detect_newsletter exampleDoc2).2.1 = 10 ∧
      (detect_newsletter exampleDoc2).1 = false) := by decide

/-- Claim C4 (amended): a document with no forms whose page text is
"Subscribe to our Newsletter and get our weekly digest" (and whose markup
mentions no provider) yields confidence exactly 20 — the two patterns
`subscribe.*newsletter` and `get.*weekly.*digest` both match — and
classified = false. -/
theorem c4_two_patterns :
    (detect_newsletter exampleDoc2).2.1 = 20 ∧
    (detect_newsletter exampleDoc2).1 = false ∧
    (detect_newsletter exampleDoc2).2.2 =
      ["pattern:get.*weekly.*digest", "pattern:subscribe.*newslette"] := by decide

/-! ### Domain path explorer (`app.py`, `analyze_domain`) and orchestrator
accounting (`process_domain`, `update_stats`).  The HTTP transport is an
argument `net : String → Option HttpResp`; `none` models a raised
`RequestException`, otherwise the response carries the status code, the final
URL after redirects, and the parsed body. -/

/-- One HTTP response. -/
structure HttpResp where
  status : Nat
  url : String
  doc : Doc
deriving DecidableEq, Repr

/-- The fixed ordered path list. -/
def paths_to_check : List String :=
  ["/", "/newsletter", "/subscribe", "/contact", "/about"]

/-- The mutable state of `analyze_domain`'s loop. -/
structure ExpState where
  all_signals : List String
  successful_url : Option String
  max_confidence : Nat
  found_paths : List String
deriving DecidableEq, Repr

/-- Initial loop state. -/
def initExp : ExpState := ⟨[], none, 0, []⟩

/-- Python truthiness of the `successful_url` variable (`None` and the empty
string are falsy). -/
def pyTruthyUrl : Option String → Bool
  | none => false
  | some s => !(s = "")

/-- Tag the signals of one path and merge them into the accumulated set,
skipping empty entries as the source's `if signal:` does. -/
def addTagged (acc : List String) (path : String) (sigs : List String) : List String :=
  sigs.foldl (fun a s => if s = "" then a else insertSet a (path ++ ":" ++ s)) acc

/-- The record `analyze_domain` appends to the result sink. -/
structure SiteRecord where
  domain : String
  url : String
  has_newsletter : Bool
  confidence : Nat
  signals : String
  found_paths : String
deriving DecidableEq, Repr

/-- Loop-body reaction to one fetch result: skip errors, record the first
truthy final URL, detect, absorb a strictly better classified result, and
report whether the root early-exit `break` fires. -/
def analyze_resp (st : ExpState) (path : String) : Option HttpResp → ExpState × Bool
  | none => (st, false)
  | some r =>
    if 400 ≤ r.status then (st, false)
    else
      let st1 := if pyTruthyUrl st.successful_url then st
        else { st with successful_url := some r.url }
      if (detect_newsletter r.doc).1 = true ∧
          st1.max_confidence < (detect_newsletter r.doc).2.1 then
        ({ st1 with
            max_confidence := (detect_newsletter r.doc).2.1,
            found_paths := insertSet st1.found_paths path,
            all_signals := addTagged st1.all_signals path (detect_newsletter r.doc).2.2 },
          decide (path = "/" ∧ 50 ≤ (detect_newsletter r.doc).2.1))
      else (st1, false)

/-- One iteration of `analyze_domain`'s path loop: fetch
`https://{domain}{path}` and react to the result. -/
def analyze_step (net : String → Option HttpResp) (base : String) (st : ExpState)
    (path : String) : ExpState × Bool :=
  analyze_resp st path (net (base ++ path))

/-- The path loop; the second component is the list of paths actually
attempted (the loop body runs for them) in order, cut short by the break. -/
def analyze_loop (net : String → Option HttpResp) (base : String) :
    List String → ExpState → ExpState × List String
  | [], st => (st, [])
  | p :: ps, st =>
    let sb := analyze_step net base st p
    if sb.2 then (sb.1, [p])
    else
      let r := analyze_loop net base ps sb.1
      (r.1, p :: r.2)

/-- The base URL for a domain. -/
def base_of (domain : String) : String := "https://" ++ domain

/-- `analyze_domain`: run the loop over the fixed paths and build a
`SiteRecord` when some path produced a truthy final URL. -/
def analyze_domain (net : String → Option HttpResp) (domain : String) :
    Option SiteRecord :=
  let st := (analyze_loop net (base_of domain) paths_to_check initExp).1
  if pyTruthyUrl st.successful_url then
    some
      { domain := domain,
        url := st.successful_url.getD "",
        has_newsletter := decide (30 ≤ st.max_confidence),
        confidence := st.max_confidence,
        signals := String.intercalate ";" (sortStrings st.all_signals),
        found_paths := String.intercalate ";" (sortStrings st.found_paths) }
  else none

/-- The paths `analyze_domain` actually attempts for a domain. -/
def triedPaths (net : String → Option HttpResp) (domain : String) : List String :=
  (analyze_loop net (base_of domain) paths_to_check initExp).2

/-- The process-wide counters. -/
structure Stats where
  processed : Nat
  with_newsletter : Nat
  without_newsletter : Nat
  errors : Nat
deriving DecidableEq, Repr

/-- `update_stats`: bump `processed`, then exactly one of the three outcome
counters. -/
def update_stats (s : Stats) (has_newsletter : Bool) (error : Bool) : Stats :=
  let s1 := { s with processed := s.processed + 1 }
  if error then { s1 with errors := s1.errors + 1 }
  else if has_newsletter then { s1 with with_newsletter := s1.with_newsletter + 1 }
  else { s1 with without_newsletter := s1.without_newsletter + 1 }

/-- `process_domain`: analyze, and either append the record and count its
classification, or count an error with nothing written. -/
def process_domain (net : String → Option HttpResp) (domain : String) (s : Stats) :
    Option SiteRecord × Stats :=
  match analyze_domain net domain with
  | some r => (some r, update_stats s r.has_newsletter false)
  | none => (none, update_stats s false true)

/-! ### Loop lemmas for the path explorer -/

/-- Inserting an element puts it into the set. -/
theorem insertSet_mem (l : List String) (s : String) : s ∈ insertSet l s := by
  unfold insertSet
  by_cases h : l.contains s = true
  · rw [if_pos h]
    exact List.mem_of_elem_eq_true h
  · rw [if_neg h]
    simp

/-- Recording the first URL does not change the confidence field. -/
theorem urlStep_max (st : ExpState) (r : HttpResp) :
    (if pyTruthyUrl st.successful_url then st
      else { st with successful_url := some r.url }).max_confidence =
      st.max_confidence := by
  split <;> rfl

/-- Recording the first URL does not change the contributing-path field. -/
theorem urlStep_found (st : ExpState) (r : HttpResp) :
    (if pyTruthyUrl st.successful_url then st
      else { st with successful_url := some r.url }).found_paths = st.found_paths := by
  split <;> rfl

/-- Recording the first URL does not change the signal field. -/
theorem urlStep_signals (st : ExpState) (r : HttpResp) :
    (if pyTruthyUrl st.successful_url then st
      else { st with successful_url := some r.url }).all_signals = st.all_signals := by
  split <;> rfl

/-- Claim C9: one loop iteration changes the running maximum (and the
contributing-path set and the signal set) only on a fetched, non-error
response whose classified confidence strictly exceeds the current maximum —
a tie or a lower score leaves all three untouched — and in the strict case
the maximum becomes that confidence and the path is recorded. -/
theorem c9_strict_update (net : String → Option HttpResp) (base p : String) (st : ExpState) :
    (net (base ++ p) = none → (analyze_step net base st p).1 = st) ∧
    (∀ r, net (base ++ p) = some r → 400 ≤ r.status →
      (analyze_step net base st p).1 = st) ∧
    (∀ r, net (base ++ p) = some r → r.status < 400 →
      (¬((detect_newsletter r.doc).1 = true ∧
          st.max_confidence < (detect_newsletter r.doc).2.1) →
        (analyze_step net base st p).1.max_confidence = st.max_confidence ∧
        (analyze_step net base st p).1.found_paths = st.found_paths ∧
        (analyze_step net base st p).1.all_signals = st.all_signals) ∧
      (((detect_newsletter r.doc).1 = true ∧
          st.max_confidence < (detect_newsletter r.doc).2.1) →
        (analyze_step net base st p).1.max_confidence = (detect_newsletter r.doc).2.1 ∧
        p ∈ (analyze_step net base st p).1.found_paths)) := by
  refine ⟨?_, ?_, ?_⟩
  · intro h
    unfold analyze_step
    rw [h]
    rfl
  · intro r h hs
    unfold analyze_step
    rw [h]
    simp only [analyze_resp]
    rw [if_pos hs]
  · intro r h h400
    have hns : ¬ 400 ≤ r.status := Nat.not_le.mpr h400
    constructor
    · intro hnot
      unfold analyze_step
      rw [h]
      simp only [analyze_resp]
      rw [if_neg hns]
      rw [if_neg (fun hc => hnot ⟨hc.1, urlStep_max st r ▸ hc.2⟩)]
      exact ⟨urlStep_max st r, urlStep_found st r, urlStep_signals st r⟩
    · intro hyes
      unfold analyze_step
      rw [h]
      simp only [analyze_resp]
      rw [if_neg hns]
      rw [if_pos ⟨hyes.1, (urlStep_max st r).symm ▸ hyes.2⟩]
      refine ⟨rfl, ?_⟩
      have := insertSet_mem ((if pyTruthyUrl st.successful_url then st
        else { st with successful_url := some r.url }).found_paths) p
      simpa using this

/-- A named email input used in the high-confidence example form. -/
def emailCtl65 : Ctl := ⟨"input", some "email", some "email", none, none, none, ""⟩

/-- A subscribe button used in the high-confidence example form. -/
def buttonCtl65 : Ctl := ⟨"button", none, none, none, none, none, "Subscribe"⟩

/-- A form scoring 30 + 20 + 15 = 65. -/
def form65 : FormElem :=
  ⟨[emailCtl65, buttonCtl65], some "/subscribe", none,
    "<form action=\"/subscribe\"><input type=\"email\" name=\"email\"/></form>"⟩

/-- A document whose detection confidence is 65. -/
def doc65 : Doc := ⟨[form65], "", "", []⟩

/-- A successful root response carrying `doc65`. -/
def resp65 : HttpResp := ⟨200, "https://d.com/", doc65⟩

/-- A transport where only the root of `d.com` answers. -/
def net5 : String → Option HttpResp :=
  fun u => if u = "https://d.com/" then some resp65 else none

/-- Witness for C9: the root response of `net5` strictly beats the initial
maximum, so the step absorbs its confidence and records the path. -/
theorem c9_witness :
    (analyze_step net5 (base_of "d.com") initExp "/").1.max_confidence =
      (detect_newsletter resp65.doc).2.1 ∧
    "/" ∈ (analyze_step net5 (base_of "d.com") initExp "/").1.found_paths :=
  ((c9_strict_update net5 (base_of "d.com") "/" initExp).2.2 resp65 (by decide)
    (by decide)).2 ⟨by decide, by decide⟩

/-- One loop iteration preserves "confidence is 0 or at least 30". -/
theorem analyze_resp_max_inv (st : ExpState) (p : String) (o : Option HttpResp)
    (h : st.max_confidence = 0 ∨ 30 ≤ st.max_confidence) :
    (analyze_resp st p o).1.max_confidence = 0 ∨
      30 ≤ (analyze_resp st p o).1.max_confidence := by
  cases o with
  | none => exact h
  | some r =>
    simp only [analyze_resp]
    split
    · exact h
    · split <;> split
      case isTrue hcl =>
        right
        have h1 := hcl.1
        rw [detect_classified] at h1
        exact of_decide_eq_true h1
      case isFalse hcl => exact h
      case isTrue hcl =>
        right
        have h1 := hcl.1
        rw [detect_classified] at h1
        exact of_decide_eq_true h1
      case isFalse hcl => exact h

/-- The whole loop preserves "confidence is 0 or at least 30". -/
theorem analyze_loop_max_inv (net : String → Option HttpResp) (base : String)
    (ps : List String) (st : ExpState)
    (h : st.max_confidence = 0 ∨ 30 ≤ st.max_confidence) :
    (analyze_loop net base ps st).1.max_confidence = 0 ∨
      30 ≤ (analyze_loop net base ps st).1.max_confidence := by
  induction ps generalizing st with
  | nil => exact h
  | cons p rest ih =>
    have hstep := analyze_resp_max_inv st p (net (base ++ p)) h
    simp only [analyze_loop]
    split
    · exact hstep
    · exact ih _ hstep

/-- Claim C10: every emitted SiteRecord has confidence exactly 0 or at least
30 (never strictly between), and is classified exactly when the confidence is
nonzero: only classified (≥ 30) per-path results are absorbed into the
running maximum, so sub-threshold scores are reported as 0. -/
theorem c10_confidence_gap (net : String → Option HttpResp) (domain : String)
    (rec : SiteRecord) (h : analyze_domain net domain = some rec) :
    (rec.confidence = 0 ∨ 30 ≤ rec.confidence) ∧
      (rec.has_newsletter = true ↔ rec.confidence ≠ 0) := by
  have hinv := analyze_loop_max_inv net (base_of domain) paths_to_check initExp (Or.inl rfl)
  simp only [analyze_domain] at h
  split at h
  · cases h
    refine ⟨hinv, ?_, ?_⟩
    · intro hn hc0
      have h30 : 30 ≤ (analyze_loop net (base_of domain) paths_to_check initExp).1.max_confidence :=
        of_decide_eq_true hn
      have hc0a : (analyze_loop net (base_of domain) paths_to_check initExp).1.max_confidence = 0 :=
        hc0
      omega
    · intro hne
      rcases hinv with h0 | h30
      · exact absurd h0 hne
      · exact decide_eq_true h30
  · exact absurd h (by simp)

/-- The empty document. -/
def emptyDoc : Doc := ⟨[], "", "", []⟩

/-- A successful but signal-free response. -/
def respEx : HttpResp := ⟨200, "https://e.com/", emptyDoc⟩

/-- A transport where every URL answers with the signal-free response. -/
def netEx : String → Option HttpResp := fun _ => some respEx

/-- The record `analyze_domain` emits for `e.com` under `netEx`. -/
def recEx : SiteRecord := ⟨"e.com", "https://e.com/", false, 0, "", ""⟩

/-- Witness for C10 at the concrete signal-free crawl. -/
theorem c10_witness :
    (recEx.confidence = 0 ∨ 30 ≤ recEx.confidence) ∧
      (recEx.has_newsletter = true ↔ recEx.confidence ≠ 0) :=
  c10_confidence_gap netEx "e.com" recEx (by decide)

/-- One path's fetch failed: exception, or an error status. -/
def netFails (net : String → Option HttpResp) (base p : String) : Prop :=
  net (base ++ p) = none ∨ ∃ r, net (base ++ p) = some r ∧ 400 ≤ r.status

/-- A loop over all-failing paths changes nothing and attempts every path. -/
theorem analyze_loop_allfail (net : String → Option HttpResp) (base : String)
    (ps : List String) (st : ExpState) (h : ∀ p ∈ ps, netFails net base p) :
    analyze_loop net base ps st = (st, ps) := by
  induction ps generalizing st with
  | nil => rfl
  | cons p rest ih =>
    have hstep : analyze_step net base st p = (st, false) := by
      rcases h p (List.mem_cons_self p rest) with hn | ⟨r, hr, hs⟩
      · unfold analyze_step
        rw [hn]
        rfl
      · unfold analyze_step
        rw [hr]
        simp only [analyze_resp]
        rw [if_pos hs]
    simp only [analyze_loop, hstep]
    simp [ih st (fun q hq => h q (List.mem_cons_of_mem p hq))]

/-- Claim C7: when every path of a domain fails to fetch, no SiteRecord is
produced and the outcome is counted as an error: `processed` and `errors`
are incremented while both classification counters are untouched. -/
theorem c7_no_fetch_error (net : String → Option HttpResp) (domain : String) (s : Stats)
    (h : ∀ p ∈ paths_to_check, netFails net (base_of domain) p) :
    (process_domain net domain s).1 = none ∧
    (process_domain net domain s).2 =
      { s with processed := s.processed + 1, errors := s.errors + 1 } := by
  have hloop := analyze_loop_allfail net (base_of domain) paths_to_check initExp h
  have hana : analyze_domain net domain = none := by
    simp only [analyze_domain, hloop]
    rfl
  unfold process_domain
  rw [hana]
  exact ⟨rfl, rfl⟩

/-- The all-failing transport. -/
def netNone : String → Option HttpResp := fun _ => none

/-- Witness for C7 at the all-failing transport and zeroed counters. -/
theorem c7_witness :
    (process_domain netNone "z.com" ⟨0, 0, 0, 0⟩).1 = none ∧
    (process_domain netNone "z.com" ⟨0, 0, 0, 0⟩).2 = ⟨1, 0, 0, 1⟩ := by
  have h := c7_no_fetch_error netNone "z.com" ⟨0, 0, 0, 0⟩
    (fun p _ => Or.inl rfl)
  exact ⟨h.1, by rw [h.2]⟩

/-- The final URL of the first path (in order) whose fetch returned a
non-error response. -/
def firstSuccessUrl (net : String → Option HttpResp) (base : String) :
    List String → Option String
  | [] => none
  | p :: ps =>
    match net (base ++ p) with
    | none => firstSuccessUrl net base ps
    | some r => if 400 ≤ r.status then firstSuccessUrl net base ps else some r.url

/-- A truthy recorded URL survives one loop iteration. -/
theorem analyze_resp_url_keep (st : ExpState) (p : String) (o : Option HttpResp)
    (u : String) (hu : st.successful_url = some u) (hne : u ≠ "") :
    (analyze_resp st p o).1.successful_url = some u := by
  cases o with
  | none => exact hu
  | some r =>
    have hpt : pyTruthyUrl st.successful_url = true := by
      rw [hu]
      simp [pyTruthyUrl, hne]
    simp only [analyze_resp]
    split
    · exact hu
    · split
      · exact hu
      · exact hu

/-- A truthy recorded URL survives the whole loop. -/
theorem analyze_loop_url_keep (net : String → Option HttpResp) (base : String)
    (ps : List String) (st : ExpState) (u : String)
    (hu : st.successful_url = some u) (hne : u ≠ "") :
    (analyze_loop net base ps st).1.successful_url = some u := by
  induction ps generalizing st with
  | nil => exact hu
  | cons p rest ih =>
    have hstep := analyze_resp_url_keep st p (net (base ++ p)) u hu hne
    simp only [analyze_loop]
    split
    · exact hstep
    · exact ih _ hstep

/-- A successful non-error fetch on a state with no recorded URL records the
response's final URL. -/
theorem analyze_resp_url_set (st : ExpState) (p : String) (r : HttpResp)
    (h400 : ¬ 400 ≤ r.status) (hnone : st.successful_url = none) :
    (analyze_resp st p (some r)).1.successful_url = some r.url := by
  have hpt : pyTruthyUrl st.successful_url = false := by
    rw [hnone]
    rfl
  simp only [analyze_resp]
  rw [if_neg h400]
  rw [if_neg (fun hc : pyTruthyUrl st.successful_url = true =>
    absurd (hpt ▸ hc) (by simp))]
  split
  · rfl
  · rfl

/-- Starting from a state with no recorded URL, the loop records exactly the
final URL of the first non-error fetch, provided the transport never reports
an empty final URL. -/
theorem analyze_loop_first_url (net : String → Option HttpResp) (base : String)
    (hurl : ∀ p r, net (base ++ p) = some r → r.url ≠ "") :
    ∀ (ps : List String) (sigs : List String) (mc : Nat) (fps : List String),
      (analyze_loop net base ps ⟨sigs, none, mc, fps⟩).1.successful_url =
        firstSuccessUrl net base ps := by
  intro ps
  induction ps with
  | nil => intro sigs mc fps; rfl
  | cons p rest ih =>
    intro sigs mc fps
    cases hnet : net (base ++ p) with
    | none =>
      have hstep : analyze_step net base ⟨sigs, none, mc, fps⟩ p =
          (⟨sigs, none, mc, fps⟩, false) := by
        unfold analyze_step
        rw [hnet]
        rfl
      simp only [analyze_loop, hstep, firstSuccessUrl, hnet]
      simpa using ih sigs mc fps
    | some r =>
      by_cases hs : 400 ≤ r.status
      · have hstep : analyze_step net base ⟨sigs, none, mc, fps⟩ p =
            (⟨sigs, none, mc, fps⟩, false) := by
          unfold analyze_step
          rw [hnet]
          simp only [analyze_resp]
          rw [if_pos hs]
        simp only [analyze_loop, hstep, firstSuccessUrl, hnet]
        rw [if_pos hs]
        simpa using ih sigs mc fps
      · have hset : (analyze_step net base ⟨sigs, none, mc, fps⟩ p).1.successful_url =
            some r.url := by
          unfold analyze_step
          rw [hnet]
          exact analyze_resp_url_set ⟨sigs, none, mc, fps⟩ p r hs rfl
        have hne := hurl p r hnet
        have hfirst : firstSuccessUrl net base (p :: rest) = some r.url := by
          simp only [firstSuccessUrl, hnet]
          rw [if_neg hs]
        rw [hfirst]
        simp only [analyze_loop]
        split
        · exact hset
        · exact analyze_loop_url_keep net base rest _ r.url hset hne

/-- A nonempty first-success URL comes from an actual response of the
transport. -/
theorem firstSuccessUrl_some (net : String → Option HttpResp) (base : String)
    (ps : List String) (u : String) (h : firstSuccessUrl net base ps = some u) :
    ∃ p ∈ ps, ∃ r, net (base ++ p) = some r ∧ u = r.url := by
  induction ps with
  | nil => simp [firstSuccessUrl] at h
  | cons p rest ih =>
    cases hnet : net (base ++ p) with
    | none =>
      simp only [firstSuccessUrl, hnet] at h
      obtain ⟨q, hq, hr⟩ := ih h
      exact ⟨q, List.mem_cons_of_mem p hq, hr⟩
    | some r =>
      simp only [firstSuccessUrl, hnet] at h
      by_cases hs : 400 ≤ r.status
      · rw [if_pos hs] at h
        obtain ⟨q, hq, hr⟩ := ih h
        exact ⟨q, List.mem_cons_of_mem p hq, hr⟩
      · rw [if_neg hs] at h
        exact ⟨p, List.mem_cons_self p rest, r, hnet, (Option.some.inj h).symm⟩

/-- Claim C8: whenever exploration emits a SiteRecord, its resolved URL is
the final URL of the first path that returned a non-error response,
independent of which path produced the maximum confidence (assuming the
transport never reports an empty final URL). -/
theorem c8_resolved_url (net : String → Option HttpResp) (domain : String)
    (rec : SiteRecord)
    (hurl : ∀ p r, net (base_of domain ++ p) = some r → r.url ≠ "")
    (h : analyze_domain net domain = some rec) :
    firstSuccessUrl net (base_of domain) paths_to_check = some rec.url := by
  have hfirst : (analyze_loop net (base_of domain) paths_to_check initExp).1.successful_url =
      firstSuccessUrl net (base_of domain) paths_to_check :=
    analyze_loop_first_url net (base_of domain) hurl paths_to_check [] 0 []
  simp only [analyze_domain] at h
  split at h
  next hpt =>
    cases h
    cases hsu : (analyze_loop net (base_of domain) paths_to_check initExp).1.successful_url with
    | none =>
      rw [hsu] at hpt
      exact absurd hpt (by simp [pyTruthyUrl])
    | some u =>
      rw [hsu] at hfirst
      rw [← hfirst]
      rfl
  next => exact absurd h (by simp)

/-- Witness for C8: under `netEx` every path answers, the first answer's URL
is recorded, and the emitted record resolves to it. -/
theorem c8_witness :
    firstSuccessUrl netEx (base_of "e.com") paths_to_check = some recEx.url :=
  c8_resolved_url netEx "e.com" recEx
    (fun p r hp => by
      have hr : respEx = r := Option.some.inj hp
      rw [← hr]
      decide)
    (by decide)

/-- The break flag is never set on a non-root path. -/
theorem analyze_resp_not_root (st : ExpState) (p : String) (o : Option HttpResp)
    (hp : p ≠ "/") : (analyze_resp st p o).2 = false := by
  cases o with
  | none => rfl
  | some r =>
    simp only [analyze_resp]
    split
    · rfl
    · split <;> split <;> simp [hp]

/-- The break flag is never set when the response's confidence is below 50. -/
theorem analyze_resp_no50 (st : ExpState) (p : String) (o : Option HttpResp)
    (h : ∀ r, o = some r → ¬ 50 ≤ (detect_newsletter r.doc).2.1) :
    (analyze_resp st p o).2 = false := by
  cases o with
  | none => rfl
  | some r =>
    simp only [analyze_resp]
    split
    · rfl
    · split <;> split <;> simp [h r rfl]

/-- A loop over non-root paths never breaks: it attempts all of them. -/
theorem analyze_loop_no_break (net : String → Option HttpResp) (base : String)
    (ps : List String) (h : ∀ p ∈ ps, p ≠ "/") :
    ∀ st : ExpState, (analyze_loop net base ps st).2 = ps := by
  induction ps with
  | nil => intro st; rfl
  | cons p rest ih =>
    intro st
    have hb : (analyze_step net base st p).2 = false := by
      unfold analyze_step
      exact analyze_resp_not_root st p (net (base ++ p)) (h p (List.mem_cons_self p rest))
    have ih2 := ih (fun q hq => h q (List.mem_cons_of_mem p hq))
    simp only [analyze_loop, hb]
    simp [ih2]

/-- Full equation for a classified, strictly improving iteration starting
from a state with no recorded URL. -/
theorem analyze_resp_classified_eq (st : ExpState) (p : String) (r : HttpResp)
    (h400 : ¬ 400 ≤ r.status) (hnone : st.successful_url = none)
    (hcl : (detect_newsletter r.doc).1 = true)
    (hgt : st.max_confidence < (detect_newsletter r.doc).2.1) :
    analyze_resp st p (some r) =
      (⟨addTagged st.all_signals p (detect_newsletter r.doc).2.2, some r.url,
        (detect_newsletter r.doc).2.1, insertSet st.found_paths p⟩,
       decide (p = "/" ∧ 50 ≤ (detect_newsletter r.doc).2.1)) := by
  simp only [analyze_resp]
  rw [if_neg h400, hnone]
  rw [if_neg (show ¬ (pyTruthyUrl none = true) by decide)]
  rw [if_pos ⟨hcl, hgt⟩]

/-- The early-exit condition: the root fetch answered without error and its
detection confidence reached 50. -/
def rootHigh (net : String → Option HttpResp) (domain : String) : Prop :=
  ∃ r, net (base_of domain ++ "/") = some r ∧ r.status < 400 ∧
    50 ≤ (detect_newsletter r.doc).2.1

/-- Claim C5: the early exit fires when and only when the root path's fetched
confidence is at least 50 — exploration then attempts only `/` — and it never
fires for any non-root path regardless of score, so otherwise every path is
attempted; when it fires (and the final URL is truthy) the emitted record's
contributing-path set is exactly `/` and its confidence is the root's. -/
theorem c5_early_exit (net : String → Option HttpResp) (domain : String) :
    (triedPaths net domain = paths_to_check ∨ triedPaths net domain = ["/"]) ∧
    (triedPaths net domain = ["/"] ↔ rootHigh net domain) ∧
    (∀ r, net (base_of domain ++ "/") = some r → r.status < 400 →
      50 ≤ (detect_newsletter r.doc).2.1 → r.url ≠ "" →
      ∃ rec, analyze_domain net domain = some rec ∧ rec.found_paths = "/" ∧
        rec.confidence = (detect_newsletter r.doc).2.1) := by
  have hrest : ∀ q ∈ (["/newsletter", "/subscribe", "/contact", "/about"] : List String),
      q ≠ "/" := by decide
  have hnb := analyze_loop_no_break net (base_of domain)
    ["/newsletter", "/subscribe", "/contact", "/about"] hrest
  have hcons : ∀ (p : String) (ps : List String) (st : ExpState),
      analyze_loop net (base_of domain) (p :: ps) st =
        if (analyze_step net (base_of domain) st p).2 = true
        then ((analyze_step net (base_of domain) st p).1, [p])
        else ((analyze_loop net (base_of domain) ps
            (analyze_step net (base_of domain) st p).1).1,
          p :: (analyze_loop net (base_of domain) ps
            (analyze_step net (base_of domain) st p).1).2) :=
    fun p ps st => rfl
  cases hnet : net (base_of domain ++ "/") with
  | none =>
    have hb : (analyze_step net (base_of domain) initExp "/").2 = false := by
      unfold analyze_step
      rw [hnet]
      rfl
    have htr : triedPaths net domain = paths_to_check := by
      simp only [triedPaths, paths_to_check]
      rw [hcons, hb]
      simp [hnb]
    refine ⟨Or.inl htr, ⟨?_, ?_⟩, ?_⟩
    · intro h
      rw [htr] at h
      exact absurd h (by decide)
    · rintro ⟨r, hr, -, -⟩
      rw [hnet] at hr
      exact absurd hr (by simp)
    · intro r hr
      exact absurd hr (by simp)
  | some r =>
    by_cases hs : 400 ≤ r.status
    · have hb : (analyze_step net (base_of domain) initExp "/").2 = false := by
        unfold analyze_step
        rw [hnet]
        simp only [analyze_resp]
        rw [if_pos hs]
      have htr : triedPaths net domain = paths_to_check := by
        simp only [triedPaths, paths_to_check]
        rw [hcons, hb]
        simp [hnb]
      refine ⟨Or.inl htr, ⟨?_, ?_⟩, ?_⟩
      · intro h
        rw [htr] at h
        exact absurd h (by decide)
      · rintro ⟨r2, hr2, h42, -⟩
        rw [hnet] at hr2
        obtain rfl : r = r2 := Option.some.inj hr2
        omega
      · intro r2 hr2 h42
        obtain rfl : r = r2 := Option.some.inj hr2
        omega
    · by_cases h50 : 50 ≤ (detect_newsletter r.doc).2.1
      · have hcl : (detect_newsletter r.doc).1 = true := by
          rw [detect_classified]
          exact decide_eq_true (by omega)
        have hgt : initExp.max_confidence < (detect_newsletter r.doc).2.1 := by
          show 0 < (detect_newsletter r.doc).2.1
          omega
        have heq := analyze_resp_classified_eq initExp "/" r hs rfl hcl hgt
        have hb : (analyze_step net (base_of domain) initExp "/").2 = true := by
          unfold analyze_step
          rw [hnet, heq]
          simp [h50]
        have htr : triedPaths net domain = ["/"] := by
          simp only [triedPaths, paths_to_check]
          rw [hcons, hb]
          rfl
        have hst : (analyze_loop net (base_of domain) paths_to_check initExp).1 =
            ⟨addTagged [] "/" (detect_newsletter r.doc).2.2, some r.url,
              (detect_newsletter r.doc).2.1, insertSet [] "/"⟩ := by
          simp only [paths_to_check]
          rw [hcons, hb]
          rw [if_pos rfl]
          show (analyze_resp initExp "/" (net (base_of domain ++ "/"))).1 = _
          rw [hnet, heq]
          rfl
        refine ⟨Or.inr htr,
          ⟨fun _ => ⟨r, hnet, Nat.lt_of_not_le hs, h50⟩, fun _ => htr⟩, ?_⟩
        intro r2 hr2 h42 h502 hne2
        obtain rfl : r = r2 := Option.some.inj hr2
        have hana : analyze_domain net domain =
            some ⟨domain, r.url, decide (30 ≤ (detect_newsletter r.doc).2.1),
              (detect_newsletter r.doc).2.1,
              String.intercalate ";"
                (sortStrings (addTagged [] "/" (detect_newsletter r.doc).2.2)),
              String.intercalate ";" (sortStrings (insertSet [] "/"))⟩ := by
          simp only [analyze_domain, hst]
          simp [pyTruthyUrl, hne2]
        refine ⟨_, hana, rfl, rfl⟩
      · have hb : (analyze_step net (base_of domain) initExp "/").2 = false := by
          unfold analyze_step
          rw [hnet]
          exact analyze_resp_no50 initExp "/" (some r)
            (fun r2 hr2 => (Option.some.inj hr2) ▸ h50)
        have htr : triedPaths net domain = paths_to_check := by
          simp only [triedPaths, paths_to_check]
          rw [hcons, hb]
          simp [hnb]
        refine ⟨Or.inl htr, ⟨?_, ?_⟩, ?_⟩
        · intro h
          rw [htr] at h
          exact absurd h (by decide)
        · rintro ⟨r2, hr2, -, h502⟩
          rw [hnet] at hr2
          obtain rfl : r = r2 := Option.some.inj hr2
          exact absurd h502 h50
        · intro r2 hr2 h42 h502
          obtain rfl : r = r2 := Option.some.inj hr2
          exact absurd h502 h50

/-- Witness for C5: under `net5` the root scores 65, exploration stops after
`/`, and the record's contributing-path set is exactly `/`. -/
theorem c5_witness :
    triedPaths net5 "d.com" = ["/"] ∧
    ∃ rec, analyze_domain net5 "d.com" = some rec ∧ rec.found_paths = "/" ∧
      rec.confidence = (detect_newsletter resp65.doc).2.1 := by
  have h := c5_early_exit net5 "d.com"
  exact ⟨h.2.1.mpr ⟨resp65, by decide, by decide, by decide⟩,
    h.2.2 resp65 (by decide) (by decide) (by decide) (by decide)⟩

/-! ### Registration orchestrator (`register_newsletters.py`, `run`), one
site's processing.  `register_to_newsletter` for the fixed site is abstracted
as an oracle `reg : String → Bool × String` from the email value to the
attempt's outcome; every persisted row is `(email, succeeded, message)`. -/

/-- The inner loop over the remaining email values after a first success:
each value is submitted, its row persisted, and the success/failure counters
updated. -/
def register_remaining (reg : String → Bool × String) :
    List String → List (String × Bool × String) × Nat × Nat
  | [] => ([], 0, 0)
  | e :: rest =>
    let out := reg e
    let r := register_remaining reg rest
    ((e, out.1, out.2) :: r.1,
      (if out.1 then r.2.1 + 1 else r.2.1),
      (if out.1 then r.2.2 else r.2.2 + 1))

/-- Outcome of processing one site. -/
structure SiteOutcome where
  rows : List (String × Bool × String)
  succ : Nat
  fail : Nat
  skipped : Nat
deriving DecidableEq, Repr

/-- Per-site body of `run`: attempt the first email and persist its row; on
success submit every remaining value sequentially and persist each row; on
failure persist nothing further and count the remaining values as skipped. -/
def process_site (reg : String → Bool × String) (first : String) (rest : List String) :
    SiteOutcome :=
  let out := reg first
  if out.1 then
    let r := register_remaining reg rest
    { rows := (first, out.1, out.2) :: r.1, succ := 1 + r.2.1, fail := r.2.2, skipped := 0 }
  else
    { rows := [(first, out.1, out.2)], succ := 0, fail := 1, skipped := rest.length }

/-- The rows of the inner loop are exactly one outcome row per remaining
email, in order. -/
theorem register_remaining_rows (reg : String → Bool × String) (l : List String) :
    (register_remaining reg l).1 = l.map (fun e => (e, (reg e).1, (reg e).2)) := by
  induction l with
  | nil => rfl
  | cons e rest ih => simp [register_remaining, ih]

/-- Claim C6: if the first target value's attempt fails, no remaining value
is attempted — the only persisted row is the first one, the remaining values
are counted as skipped (not failed, the only failure counted is the first
attempt itself); if the first attempt succeeds, every remaining value is
submitted sequentially and every individual outcome is persisted. -/
theorem c6_success_gated (reg : String → Bool × String) (first : String)
    (rest : List String) :
    ((reg first).1 = false →
      (process_site reg first rest).rows = [(first, false, (reg first).2)] ∧
      (process_site reg first rest).skipped = rest.length ∧
      (process_site reg first rest).fail = 1) ∧
    ((reg first).1 = true →
      (process_site reg first rest).rows =
        (first, true, (reg first).2) :: rest.map (fun e => (e, (reg e).1, (reg e).2)) ∧
      (process_site reg first rest).skipped = 0) := by
  constructor
  · intro h
    simp [process_site, h]
  · intro h
    simp [process_site, h, register_remaining_rows]

/-- Witness for C6: both branches at concrete oracles. -/
theorem c6_witness :
    (process_site (fun _ => (false, "no")) "a" ["b", "c"]).rows = [("a", false, "no")] ∧
    (process_site (fun _ => (false, "no")) "a" ["b", "c"]).skipped = 2 ∧
    (process_site (fun _ => (true, "ok")) "a" ["b", "c"]).rows =
      [("a", true, "ok"), ("b", true, "ok"), ("c", true, "ok")] := by
  have hf := (c6_success_gated (fun _ => (false, "no")) "a" ["b", "c"]).1 rfl
  have ht := (c6_success_gated (fun _ => (true, "ok")) "a" ["b", "c"]).2 rfl
  refine ⟨hf.1, hf.2.1, ?_⟩
  rw [ht.1]
  rfl
